import Mathlib

/-!
Shallow embedding of the typing-assessment session controller found in
`frontend/src/components/TypingGame.tsx`.  Strings are modelled as `List Char`,
JavaScript `Date.now()` timestamps as `Int`, and JavaScript numbers holding
accuracy values as `ℚ`.  The React component's `useState` cells become fields
of a `GameState` record; each event handler becomes a pure function from the
old state (plus the outcomes of the awaited remote calls, which are passed in
as parameters) to the new state together with a description of the externally
visible effects (save payloads, word-supplier requests).
-/

namespace TypingGame

/-- `s.trim()` on a JavaScript string: drop leading and trailing whitespace. -/
def jsTrim (s : List Char) : List Char :=
  ((s.dropWhile Char.isWhitespace).reverse.dropWhile Char.isWhitespace).reverse

/-- `s.toLowerCase()` on a JavaScript string (ASCII suffices here). -/
def jsToLower (s : List Char) : List Char :=
  s.map Char.toLower

/-- JavaScript indexing `s[i]`, which yields `undefined` (here `none`) out of
range. -/
def jsCharAt (s : List Char) (i : Nat) : Option Char :=
  s.get? i

/-- The mistake-counting `for` loop of `handleSubmit` (TypingGame.tsx:178-183):
for `i` in `[0, max(userWord.length, targetWord.length))` increment a counter
whenever `userWord[i] !== targetWord[i]`. -/
def mistakesLoop (userWord targetWord : List Char) : Nat :=
  (List.range (max userWord.length targetWord.length)).foldl
    (fun acc i => if jsCharAt userWord i ≠ jsCharAt targetWord i then acc + 1 else acc) 0

/-- `TOTAL_WORDS = 5` (TypingGame.tsx:5), the words-per-phase constant. -/
def TOTAL_WORDS : Nat := 5

/-- The fixed offline fallback pool (TypingGame.tsx:162). -/
def fallbackWords : List (List Char) :=
  ["cat".toList, "dog".toList, "sun".toList, "tree".toList, "book".toList]

/-- The error message set when the analysis phase throws (TypingGame.tsx:327). -/
def analysisErrorMsg : String :=
  "Failed to analyze results and generate targeted words"

/-- The error message recorded on a word-generation failure
(TypingGame.tsx:159). -/
def networkErrorMsg : String :=
  "Network error"

/-- One scored submission, the element type of `results`
(TypingGame.tsx:190-196). -/
structure TypingResult where
  word : List Char
  input : List Char
  correct : Bool
  timeSpent : Int
  mistakes : Nat
deriving DecidableEq, Repr

/-- The diagnosis returned by the analysis service (TypingGame.tsx:33-36). -/
structure Analysis where
  problematicLetters : List (List Char)
  confusionPatterns : List (List Char × List Char)
deriving DecidableEq, Repr

/-- The session phase (TypingGame.tsx:32). -/
inductive Phase where
  | initial
  | analyzing
  | targeted
deriving DecidableEq, Repr

/-- The difficulty tier (TypingGame.tsx:24). -/
inductive Difficulty where
  | easy
  | medium
  | hard
deriving DecidableEq, Repr

/-- Outcome of an awaited `fetch` returning a JSON body: the call threw (or
the response was not ok), the call returned `success: false`, or it returned
`success: true` with a payload. -/
inductive CallResult (α : Type) where
  | threw
  | successFalse
  | ok (a : α)
deriving DecidableEq, Repr

/-- The controller's full mutable state: the component's `useState` cells plus
the per-session `sessionStorage` entries (`firstSetResults_`, `targetedWords_`,
`targetedWordIndex_`) that thread data across phases. -/
structure GameState where
  currentWord : List Char
  input : List Char
  results : List TypingResult
  wordCount : Nat
  loading : Bool
  error : Option String
  difficulty : Difficulty
  accuracy : ℚ
  totalMistakes : Nat
  isGeneratingWord : Bool
  startTime : Option Int
  phase : Phase
  analysis : Option Analysis
  savingOnClose : Bool
  storedFirstSet : Option (List TypingResult)
  targetedWords : Option (List (List Char))
  targetedWordIndex : Nat
deriving DecidableEq, Repr

/-- The initial `useState` values (TypingGame.tsx:18-37) together with empty
session storage. -/
def initialState : GameState where
  currentWord := []
  input := []
  results := []
  wordCount := 0
  loading := true
  error := none
  difficulty := Difficulty.easy
  accuracy := 100
  totalMistakes := 0
  isGeneratingWord := false
  startTime := none
  phase := Phase.initial
  analysis := none
  savingOnClose := false
  storedFirstSet := none
  targetedWords := none
  targetedWordIndex := 0

/-- `input.trim().toLowerCase()` (TypingGame.tsx:173). -/
def userWordOf (s : GameState) : List Char :=
  jsToLower (jsTrim s.input)

/-- `currentWord.toLowerCase()` (TypingGame.tsx:174) — note: not trimmed. -/
def targetWordOf (s : GameState) : List Char :=
  jsToLower s.currentWord

/-- Per-word accuracy `Math.max(0, Math.min(100, (1 - mistakes/len)*100))`
(TypingGame.tsx:187). -/
def perWordAccuracy (targetWord userWord : List Char) : ℚ :=
  max 0 (min 100 ((1 - (mistakesLoop userWord targetWord : ℚ) / (targetWord.length : ℚ)) * 100))

/-- The attempt record appended to `results` (TypingGame.tsx:190-196). -/
def submitEntry (s : GameState) (endTime st : Int) : TypingResult where
  word := s.currentWord
  input := userWordOf s
  correct := decide (userWordOf s = targetWordOf s)
  timeSpent := endTime - st
  mistakes := mistakesLoop (userWordOf s) (targetWordOf s)

/-- The state updates common to every scored attempt
(TypingGame.tsx:184-201): cumulative mistakes, rolling accuracy, appended
result, cleared input, incremented word count. -/
def submitBase (s : GameState) (endTime st : Int) : GameState :=
  { s with
    totalMistakes := s.totalMistakes + (submitEntry s endTime st).mistakes
    accuracy := (s.accuracy + perWordAccuracy (targetWordOf s) (userWordOf s)) / 2
    results := s.results ++ [submitEntry s endTime st]
    input := []
    wordCount := s.wordCount + 1 }

/-- The result of one `handleSubmit` invocation: the new state, the payload
passed to the save endpoint (if any), whether `setPhase('analyzing')` ran,
and the phase-1 sequence handed to the analysis call at that moment. -/
structure SubmitOutcome where
  state : GameState
  saved : Option (List TypingResult)
  enteredAnalyzing : Bool
  phase1Snapshot : Option (List TypingResult)
deriving DecidableEq, Repr

/-- The `initial`-phase terminal branch (TypingGame.tsx:255-328): set phase to
`analyzing`, await the analysis call, then the targeted-words call; on full
success store the targeted queue, snapshot phase-1 results, clear the phase
attempts, and enter `targeted`; on a thrown failure record the analysis error
and stop. -/
def analysisBranch (s1 : GameState) (newResults : List TypingResult) (t2 : Int)
    (analysisRes : CallResult Analysis) (targetedRes : CallResult (List (List Char))) :
    SubmitOutcome :=
  let s2 := { s1 with phase := Phase.analyzing }
  match analysisRes with
  | CallResult.threw =>
      { state := { s2 with error := some analysisErrorMsg }
        saved := none, enteredAnalyzing := true, phase1Snapshot := some newResults }
  | CallResult.successFalse =>
      { state := s2, saved := none, enteredAnalyzing := true
        phase1Snapshot := some newResults }
  | CallResult.ok a =>
    let s3 := { s2 with analysis := some a }
    match targetedRes with
    | CallResult.threw =>
        { state := { s3 with error := some analysisErrorMsg }
          saved := none, enteredAnalyzing := true, phase1Snapshot := some newResults }
    | CallResult.successFalse =>
        { state := s3, saved := none, enteredAnalyzing := true
          phase1Snapshot := some newResults }
    | CallResult.ok words =>
        { state := { s3 with
            targetedWords := some words
            targetedWordIndex := 0
            storedFirstSet := some newResults
            results := []
            wordCount := 0
            phase := Phase.targeted
            isGeneratingWord := false
            currentWord := words.headD []
            startTime := some t2 }
          saved := none, enteredAnalyzing := true, phase1Snapshot := some newResults }

/-- `handleSubmit` (TypingGame.tsx:167-352).  `endTime` is `Date.now()` at
submission; `t2` is the later `Date.now()` used for the first targeted word's
timer; the two `CallResult` arguments are the outcomes of the analysis and
targeted-words calls (only consulted on the paths that await them). -/
def handleSubmit (s : GameState) (endTime t2 : Int)
    (analysisRes : CallResult Analysis) (targetedRes : CallResult (List (List Char))) :
    SubmitOutcome :=
  match s.startTime with
  | none => { state := s, saved := none, enteredAnalyzing := false, phase1Snapshot := none }
  | some st =>
    if s.currentWord = [] ∨ jsTrim s.input = [] then
      { state := s, saved := none, enteredAnalyzing := false, phase1Snapshot := none }
    else
      if s.wordCount + 1 ≥ TOTAL_WORDS then
        if s.phase = Phase.initial then
          analysisBranch (submitBase s endTime st) (submitBase s endTime st).results t2
            analysisRes targetedRes
        else if s.phase = Phase.targeted then
          { state := { submitBase s endTime st with storedFirstSet := none, targetedWords := none }
            saved := some (s.storedFirstSet.getD [] ++ (submitBase s endTime st).results)
            enteredAnalyzing := false, phase1Snapshot := none }
        else
          { state := submitBase s endTime st, saved := none
            enteredAnalyzing := false, phase1Snapshot := none }
      else
        { state := submitBase s endTime st, saved := none
          enteredAnalyzing := false, phase1Snapshot := none }

/-- The result of one `generateNextWord` invocation: the new state plus, when
a live word-supplier fetch was issued, the `phase` field sent in its request
body. -/
structure GenOutcome where
  state : GameState
  request : Option Phase
deriving DecidableEq, Repr

/-- The difficulty actually in effect after the adjustment ladder
(TypingGame.tsx:106-112); the `!==` guards only skip redundant `setState`
calls, so the resulting tier is a function of the accuracy alone. -/
def adjustDifficulty (acc : ℚ) : Difficulty :=
  if acc ≥ 90 then Difficulty.hard
  else if acc ≥ 70 then Difficulty.medium
  else Difficulty.easy

/-- The plain percent-correct recomputed at the top of `generateNextWord`
(TypingGame.tsx:100-102). -/
def percentCorrect (results : List TypingResult) : ℚ :=
  if results.length > 0 then
    ((results.countP (fun r => r.correct)) : ℚ) / (results.length : ℚ) * 100
  else 100

/-- The server-fetch tail of `generateNextWord` (TypingGame.tsx:138-164):
issue the next-word request (its body carries the current phase); on success
display the returned word, on any failure record the error and substitute a
random member of the fallback pool.  `serverWord` is `some w` when the fetch
returned ok with `success: true`, `none` on any failure; `fallbackIdx` models
`Math.floor(Math.random() * fallbackWords.length)`. -/
def serverFetch (s0 : GameState) (serverWord : Option (List Char)) (fallbackIdx : Fin 5) :
    GenOutcome :=
  match serverWord with
  | some w =>
      { state := { s0 with currentWord := w, isGeneratingWord := false }
        request := some s0.phase }
  | none =>
      { state := { s0 with
          error := some networkErrorMsg
          isGeneratingWord := false
          currentWord := fallbackWords.getD fallbackIdx.val [] }
        request := some s0.phase }

/-- `generateNextWord` (TypingGame.tsx:91-165).  `now` is the `Date.now()`
value at the moment a dequeued targeted word is displayed. -/
def generateNextWord (s : GameState) (now : Int)
    (serverWord : Option (List Char)) (fallbackIdx : Fin 5) : GenOutcome :=
  let acc := percentCorrect s.results
  let s0 := { s with
    isGeneratingWord := true
    error := none
    currentWord := []
    accuracy := acc
    difficulty := adjustDifficulty acc }
  match s.targetedWords with
  | some ws =>
    if s.phase = Phase.targeted ∧ s.targetedWordIndex < ws.length then
      { state := { s0 with
          currentWord := ws.getD s.targetedWordIndex []
          targetedWordIndex := s.targetedWordIndex + 1
          isGeneratingWord := false
          startTime := some now }
        request := none }
    else
      serverFetch s0 serverWord fallbackIdx
  | none => serverFetch s0 serverWord fallbackIdx

/-- `generateInitialWord` (TypingGame.tsx:63-89): fetch the first word; on
success display it, on failure record the error.  In both branches the
per-word timer (`startTime`) is left untouched. -/
def generateInitialWord (s : GameState) (serverWord : Option (List Char)) : GameState :=
  match serverWord with
  | some w => { s with error := none, currentWord := w, loading := false }
  | none => { s with error := some networkErrorMsg, loading := false }

/-- The close-button `onClick` handler up to its suspension point
(TypingGame.tsx:420-436): a no-op while a close-save is already in flight;
otherwise raise the in-flight flag and, when any current-phase results exist,
issue a save whose payload is exactly `results`. -/
def closeClickStart (s : GameState) : GameState × Option (List TypingResult) :=
  if s.savingOnClose then (s, none)
  else
    ({ s with savingOnClose := true },
     if s.results.length > 0 then some s.results else none)

/-- The tail of the close-button handler after the save settles
(TypingGame.tsx:439-442): drop the in-flight flag (navigation follows). -/
def closeClickFinish (s : GameState) : GameState :=
  { s with savingOnClose := false }

/-- Spec-side normalization, written from the spec's words (§4.1): "Normalizes
both strings by trimming whitespace and lower-casing before comparison". -/
def specNormalize (s : List Char) : List Char :=
  jsToLower (jsTrim s)

/-- Spec-side correctness flag, written from the spec's words:
`correct = normalized(target) == normalized(input)` with both sides trimmed
and lower-cased. -/
def specCorrect (target input : List Char) : Bool :=
  decide (specNormalize target = specNormalize input)

/-- Spec-side mistake count, written from the spec's words: count of index
positions in `[0, max(len(target), len(input)))` where the characters of the
two normalized strings differ, a missing character counting as a mismatch. -/
def specMistakeCount (target input : List Char) : Nat :=
  (List.range (max (specNormalize target).length (specNormalize input).length)).countP
    (fun i => decide (jsCharAt (specNormalize target) i ≠ jsCharAt (specNormalize input) i))

/-- The mistake count the code computes, as a function of the raw target word
and raw user input (TypingGame.tsx:173-183). -/
def codeMistakeCount (target input : List Char) : Nat :=
  mistakesLoop (jsToLower (jsTrim input)) (jsToLower target)

/-- The correctness flag the code computes, as a function of the raw target
word and raw user input (TypingGame.tsx:173-175). -/
def codeCorrect (target input : List Char) : Bool :=
  decide (jsToLower (jsTrim input) = jsToLower target)

/-- Position-wise Hamming-style mismatch count over the code-normalized
strings, expressed with `countP` over the index range. -/
def codeMistakeSpec (target input : List Char) : Nat :=
  (List.range (max (jsToLower (jsTrim input)).length (jsToLower target).length)).countP
    (fun i => decide (jsCharAt (jsToLower (jsTrim input)) i ≠ jsCharAt (jsToLower target) i))

/-- Case-insensitive Hamming distance for equal-length strings. -/
def hammingCI (target input : List Char) : Nat :=
  (target.zip input).countP (fun p => decide (p.1.toLower ≠ p.2.toLower))

/-- A correctly typed attempt, used to build concrete session states. -/
def okAttempt : TypingResult where
  word := "cat".toList
  input := "cat".toList
  correct := true
  timeSpent := 1000
  mistakes := 0

/-- An incorrectly typed attempt, used to build concrete session states. -/
def badAttempt : TypingResult where
  word := "dog".toList
  input := "dgo".toList
  correct := false
  timeSpent := 1200
  mistakes := 2

/-- A state about to score the 5th attempt of the initial phase. -/
def fifthAttemptState : GameState :=
  { initialState with
    currentWord := "book".toList
    input := "boko".toList
    startTime := some 0
    wordCount := 4
    results := [okAttempt, okAttempt, badAttempt, okAttempt] }

/-- A state about to score the 5th attempt of the targeted phase, with the
phase-1 snapshot in session storage. -/
def fifthTargetedState : GameState :=
  { initialState with
    currentWord := "sun".toList
    input := "sun".toList
    startTime := some 0
    wordCount := 4
    phase := Phase.targeted
    storedFirstSet := some [okAttempt, okAttempt, okAttempt, badAttempt, okAttempt]
    results := [okAttempt, badAttempt, okAttempt, okAttempt] }

/-- A plain mid-phase scoring state: a displayed word, a typed input and a
running timer. -/
def scoringState : GameState :=
  { initialState with
    currentWord := "cat".toList
    input := "cat".toList
    startTime := some 0 }

/-- A state whose target word carries a leading space, separating the code's
normalization (input-only trimming) from the spec's (trimming both). -/
def paddedTargetState : GameState :=
  { initialState with
    currentWord := " cat".toList
    input := "cat".toList
    startTime := some 0 }

/-- A state in which every recorded attempt is wrong while the rolling
accuracy still sits at its initial 100. -/
def wrongOnlyState : GameState :=
  { initialState with
    accuracy := 100
    results := [badAttempt] }

/-- The state reached by fetching the first word of a fresh session and
typing it back: `generateInitialWord` never starts the per-word timer. -/
def firstWordState : GameState :=
  { generateInitialWord initialState (some ("cat".toList)) with input := "cat".toList }

/-- An initial-phase state about to score its 5th attempt on a word drawn
from the offline fallback pool. -/
def fallbackFifthState : GameState :=
  { initialState with
    currentWord := "sun".toList
    input := "sun".toList
    startTime := some 0
    wordCount := 4
    results := [okAttempt, okAttempt, okAttempt, okAttempt] }

/-- A mid-targeted-phase state: phase-1 results are snapshotted in session
storage and one phase-2 attempt exists.  Used for the abort-save analysis. -/
def abortState : GameState :=
  { initialState with
    phase := Phase.targeted
    storedFirstSet := some [okAttempt, okAttempt, okAttempt, okAttempt, okAttempt]
    results := [badAttempt] }

/-- A targeted-phase state whose pre-fetched word queue is exhausted. -/
def exhaustedQueueState : GameState :=
  { initialState with
    phase := Phase.targeted
    targetedWords := some ["sun".toList, "tree".toList]
    targetedWordIndex := 2
    results := [okAttempt] }

section Lemmas

/-- A counting `foldl` over any index list equals `countP`. -/
lemma foldl_count_eq_countP (q : Nat → Prop) [DecidablePred q] :
    ∀ (l : List Nat) (n : Nat),
      l.foldl (fun acc i => if q i then acc + 1 else acc) n = n + l.countP (fun i => decide (q i)) := by
  intro l
  induction l with
  | nil => intro n; simp
  | cons a l ih =>
    intro n
    rw [List.foldl_cons, ih, List.countP_cons]
    by_cases h : q a
    · simp [h]; omega
    · simp [h]

/-- The index-wise mismatch count over two equal-length lists is the mismatch
count over their zip. -/
lemma countP_range_get_ne :
    ∀ (a b : List Char), a.length = b.length →
      (List.range a.length).countP (fun i => decide (jsCharAt a i ≠ jsCharAt b i))
        = (a.zip b).countP (fun p => decide (p.1 ≠ p.2)) := by
  intro a
  induction a with
  | nil =>
    intro b h
    simp
  | cons x a ih =>
    intro b h
    cases b with
    | nil => simp at h
    | cons y b =>
      have h' : a.length = b.length := by
        simpa using h
      rw [List.length_cons, List.range_succ_eq_map, List.countP_cons, List.countP_map,
        List.zip_cons_cons, List.countP_cons]
      have hcomp :
          ((fun i => decide (jsCharAt (x :: a) i ≠ jsCharAt (y :: b) i)) ∘ Nat.succ)
            = fun i => decide (jsCharAt a i ≠ jsCharAt b i) := rfl
      rw [hcomp, ih b h']
      have hhead : (decide (jsCharAt (x :: a) 0 ≠ jsCharAt (y :: b) 0))
          = decide (((x, y).1 ≠ (x, y).2)) := by
        simp [jsCharAt]
      rw [hhead]

/-- Dropping leading whitespace ignores a prefix of spaces. -/
lemma dropWhile_replicate_space (k : Nat) (l : List Char) :
    (List.replicate k ' ' ++ l).dropWhile Char.isWhitespace = l.dropWhile Char.isWhitespace := by
  induction k with
  | zero => simp
  | succ n ih =>
    rw [List.replicate_succ, List.cons_append, List.dropWhile_cons]
    simp [ih]

/-- A run of spaces vanishes entirely under whitespace dropping. -/
lemma dropWhile_replicate_space_nil (m : Nat) :
    (List.replicate m ' ').dropWhile Char.isWhitespace = [] := by
  have := dropWhile_replicate_space m ([] : List Char)
  rw [List.append_nil] at this
  rw [this, List.dropWhile_nil]

/-- `jsTrim` erases surrounding space padding entirely. -/
lemma jsTrim_pad (k m : Nat) (input : List Char) :
    jsTrim (List.replicate k ' ' ++ input ++ List.replicate m ' ') = jsTrim input := by
  unfold jsTrim
  rw [List.append_assoc, dropWhile_replicate_space]
  rcases h : (input ++ List.replicate m ' ').dropWhile Char.isWhitespace with _ | ⟨c, rest⟩
  · rw [List.dropWhile_append] at h
    by_cases hin : (input.dropWhile Char.isWhitespace).isEmpty
    · rw [List.isEmpty_iff] at hin
      simp [hin]
    · rw [if_neg hin] at h
      rcases List.append_eq_nil.mp h with ⟨h1, _⟩
      rw [List.isEmpty_iff] at hin
      exact absurd h1 hin
  · rw [List.dropWhile_append] at h
    by_cases hin : (input.dropWhile Char.isWhitespace).isEmpty
    · rw [if_pos hin, dropWhile_replicate_space_nil] at h
      exact absurd h.symm (List.cons_ne_nil _ _)
    · rw [if_neg hin] at h
      rw [← h]
      have hrw : (input.dropWhile Char.isWhitespace ++ List.replicate m ' ').reverse
          = List.replicate m ' ' ++ (input.dropWhile Char.isWhitespace).reverse := by
        rw [List.reverse_append, List.reverse_replicate]
      rw [h, ← h, hrw, dropWhile_replicate_space]

/-- `decide` of a disequality is symmetric in its arguments. -/
lemma decide_ne_comm {α : Type} [DecidableEq α] (a b : α) :
    decide (a ≠ b) = decide (b ≠ a) := by
  rcases eq_or_ne a b with h | h
  · simp [h]
  · simp [h, h.symm]

/-- The mistake-counting loop is a `countP` over the index range. -/
lemma mistakesLoop_eq (u t : List Char) :
    mistakesLoop u t = (List.range (max u.length t.length)).countP
      (fun i => decide (jsCharAt u i ≠ jsCharAt t i)) := by
  unfold mistakesLoop
  rw [foldl_count_eq_countP (fun i => jsCharAt u i ≠ jsCharAt t i), Nat.zero_add]

/-- The code's mistake count coincides with the position-wise mismatch count
over the code-normalized strings. -/
lemma codeMistakeCount_eq_spec (target input : List Char) :
    codeMistakeCount target input = codeMistakeSpec target input := by
  unfold codeMistakeCount codeMistakeSpec
  exact mistakesLoop_eq _ _

/-- On equal-length, already-trimmed inputs the code's mistake count is the
case-insensitive Hamming distance. -/
lemma codeMistakeCount_eq_hammingCI (target input : List Char)
    (htrim : jsTrim input = input) (hlen : target.length = input.length) :
    codeMistakeCount target input = hammingCI target input := by
  unfold codeMistakeCount hammingCI
  rw [htrim, mistakesLoop_eq]
  have hmax : max (jsToLower input).length (jsToLower target).length
      = (jsToLower input).length := by
    simp [jsToLower, hlen]
  rw [hmax, countP_range_get_ne (jsToLower input) (jsToLower target) (by simp [jsToLower, hlen])]
  unfold jsToLower
  rw [List.zip_map, List.countP_map, ← List.zip_swap target input, List.countP_map]
  congr 1
  funext p
  show decide (p.2.toLower ≠ p.1.toLower) = decide (p.1.toLower ≠ p.2.toLower)
  exact decide_ne_comm _ _

end Lemmas

/-- C3 fails as stated: with the spec's normalization (trim both sides) the
mismatch count of target `" cat"` against input `"cat"` is `0`, yet the code
— which never trims the target — computes `4` for that pair, both as
`codeMistakeCount` and as the `mistakes` field actually recorded by
`handleSubmit`'s scoring step. -/
theorem c3_mistake_count_counterexample :
    codeMistakeCount (" cat".toList) ("cat".toList) = 4 ∧
    specMistakeCount (" cat".toList) ("cat".toList) = 0 ∧
    (submitEntry paddedTargetState 5 0).mistakes = 4 := by
  decide

/-- C3 (amended): the recorded mistake count is the position-wise mismatch
count in `[0, max(len, len))` over the code-normalized strings — the input
trimmed and lower-cased, the target only lower-cased, a missing character
counting as a mismatch — and for equal-length pairs whose input carries no
surrounding whitespace it is exactly the case-insensitive Hamming distance. -/
theorem c3_mistake_count_amended (target input : List Char) :
    codeMistakeCount target input = codeMistakeSpec target input ∧
    (jsTrim input = input → target.length = input.length →
      codeMistakeCount target input = hammingCI target input) ∧
    (∀ (s : GameState) (endTime st : Int),
      (submitEntry s endTime st).mistakes = codeMistakeCount s.currentWord s.input) := by
  refine ⟨codeMistakeCount_eq_spec target input, ?_, ?_⟩
  · intro htrim hlen
    exact codeMistakeCount_eq_hammingCI target input htrim hlen
  · intro s endTime st
    rfl

/-- Witness for the amended C3 at Scenario B's `book`/`boko` pair. -/
theorem c3_mistake_count_witness :
    jsTrim ("boko".toList) = "boko".toList ∧
    ("book".toList : List Char).length = ("boko".toList : List Char).length ∧
    codeMistakeCount ("book".toList) ("boko".toList) = hammingCI ("book".toList) ("boko".toList) := by
  refine ⟨by decide, by decide, ?_⟩
  exact (c3_mistake_count_amended ("book".toList) ("boko".toList)).2.1 (by decide) (by decide)

/-- C4 fails as stated: the code trims only the user input, not the target
word, so a target with surrounding whitespace is judged incorrect even when
the spec's both-sides normalization makes the strings equal. -/
theorem c4_correct_flag_counterexample :
    specCorrect (" cat".toList) ("cat".toList) = true ∧
    codeCorrect (" cat".toList) ("cat".toList) = false ∧
    (submitEntry paddedTargetState 5 0).correct = false := by
  decide

/-- C4 (amended): the input is normalized by trimming and lower-casing while
the target is only lower-cased; the recorded `correct` flag is true exactly
when the two so-normalized strings are equal, and correctness is therefore
insensitive to leading/trailing whitespace on the input (but not the target). -/
theorem c4_correct_flag_amended (s : GameState) (endTime st : Int) (k m : Nat) :
    ((submitEntry s endTime st).correct = codeCorrect s.currentWord s.input) ∧
    (codeCorrect s.currentWord s.input = true ↔
      jsToLower (jsTrim s.input) = jsToLower s.currentWord) ∧
    (codeCorrect s.currentWord (List.replicate k ' ' ++ s.input ++ List.replicate m ' ')
      = codeCorrect s.currentWord s.input) := by
  refine ⟨rfl, by simp [codeCorrect], ?_⟩
  unfold codeCorrect
  rw [jsTrim_pad]

section RunLemmas

/-- Unfolding of a `handleSubmit` run whose guards pass: the submission is
scored and each branch of the phase logic is reached as in the source. -/
lemma handleSubmit_run (s : GameState) (endTime t2 : Int)
    (ar : CallResult Analysis) (tr : CallResult (List (List Char))) (st : Int)
    (h1 : s.startTime = some st) (h2 : s.currentWord ≠ []) (h3 : jsTrim s.input ≠ []) :
    handleSubmit s endTime t2 ar tr =
      if s.wordCount + 1 ≥ TOTAL_WORDS then
        if s.phase = Phase.initial then
          analysisBranch (submitBase s endTime st) (submitBase s endTime st).results t2 ar tr
        else if s.phase = Phase.targeted then
          { state := { submitBase s endTime st with storedFirstSet := none, targetedWords := none }
            saved := some (s.storedFirstSet.getD [] ++ (submitBase s endTime st).results)
            enteredAnalyzing := false, phase1Snapshot := none }
        else
          { state := submitBase s endTime st, saved := none
            enteredAnalyzing := false, phase1Snapshot := none }
      else
        { state := submitBase s endTime st, saved := none
          enteredAnalyzing := false, phase1Snapshot := none } := by
  have hguard : ¬(s.currentWord = [] ∨ jsTrim s.input = []) := by
    push_neg
    exact ⟨h2, h3⟩
  simp only [handleSubmit, h1]
  rw [if_neg hguard]

/-- Every outcome of the analysis branch reports that `analyzing` was entered
and snapshots the attempt sequence handed to the analysis call. -/
lemma analysisBranch_entered (s1 : GameState) (newResults : List TypingResult) (t2 : Int)
    (ar : CallResult Analysis) (tr : CallResult (List (List Char))) :
    (analysisBranch s1 newResults t2 ar tr).enteredAnalyzing = true ∧
    (analysisBranch s1 newResults t2 ar tr).phase1Snapshot = some newResults := by
  cases ar with
  | threw => exact ⟨rfl, rfl⟩
  | successFalse => exact ⟨rfl, rfl⟩
  | ok a =>
    cases tr with
    | threw => exact ⟨rfl, rfl⟩
    | successFalse => exact ⟨rfl, rfl⟩
    | ok words => exact ⟨rfl, rfl⟩

/-- The accuracy after the analysis branch is the accuracy of the scored
state it starts from. -/
lemma analysisBranch_accuracy (s1 : GameState) (newResults : List TypingResult) (t2 : Int)
    (ar : CallResult Analysis) (tr : CallResult (List (List Char))) :
    (analysisBranch s1 newResults t2 ar tr).state.accuracy = s1.accuracy := by
  cases ar with
  | threw => rfl
  | successFalse => rfl
  | ok a =>
    cases tr with
    | threw => rfl
    | successFalse => rfl
    | ok words => rfl

end RunLemmas

section AccuracyLemmas

/-- Whatever the phase logic does afterwards, a scored submission leaves the
rolling accuracy at the value computed by the scoring step. -/
lemma handleSubmit_accuracy (s : GameState) (endTime t2 : Int)
    (ar : CallResult Analysis) (tr : CallResult (List (List Char))) (st : Int)
    (h1 : s.startTime = some st) (h2 : s.currentWord ≠ []) (h3 : jsTrim s.input ≠ []) :
    (handleSubmit s endTime t2 ar tr).state.accuracy
      = (s.accuracy + perWordAccuracy (targetWordOf s) (userWordOf s)) / 2 := by
  rw [handleSubmit_run s endTime t2 ar tr st h1 h2 h3]
  by_cases h5 : s.wordCount + 1 ≥ TOTAL_WORDS
  · rw [if_pos h5]
    by_cases h6 : s.phase = Phase.initial
    · rw [if_pos h6]
      exact analysisBranch_accuracy _ _ _ _ _
    · rw [if_neg h6]
      by_cases h7 : s.phase = Phase.targeted
      · rw [if_pos h7]
        rfl
      · rw [if_neg h7]
        rfl
  · rw [if_neg h5]
    rfl

/-- The per-word accuracy is clamped into `[0, 100]`. -/
lemma perWordAccuracy_bounds (t u : List Char) :
    0 ≤ perWordAccuracy t u ∧ perWordAccuracy t u ≤ 100 := by
  unfold perWordAccuracy
  exact ⟨le_max_left 0 _, max_le (by norm_num) (min_le_left _ _)⟩

/-- The percent-correct value recomputed by `generateNextWord` lies in
`[0, 100]`. -/
lemma percentCorrect_bounds (results : List TypingResult) :
    0 ≤ percentCorrect results ∧ percentCorrect results ≤ 100 := by
  unfold percentCorrect
  by_cases h : results.length > 0
  · rw [if_pos h]
    have hc : ((results.countP (fun r => r.correct)) : ℚ) ≤ (results.length : ℚ) := by
      exact_mod_cast List.countP_le_length _
    have hl : (0 : ℚ) < (results.length : ℚ) := by exact_mod_cast h
    constructor
    · positivity
    · have hdiv : ((results.countP (fun r => r.correct)) : ℚ) / (results.length : ℚ) ≤ 1 :=
        (div_le_one hl).mpr hc
      linarith
  · rw [if_neg h]
    norm_num

/-- The server-fetch tail never touches the accuracy cell. -/
lemma serverFetch_accuracy (s0 : GameState) (sw : Option (List Char)) (fi : Fin 5) :
    (serverFetch s0 sw fi).state.accuracy = s0.accuracy := by
  cases sw <;> rfl

/-- `generateNextWord` replaces the rolling accuracy with the plain
percent-correct of the recorded attempts, in every branch. -/
lemma generateNextWord_accuracy (s : GameState) (now : Int)
    (sw : Option (List Char)) (fi : Fin 5) :
    (generateNextWord s now sw fi).state.accuracy = percentCorrect s.results := by
  unfold generateNextWord
  rcases hq : s.targetedWords with _ | ws
  · simp only [hq, serverFetch_accuracy]
  · simp only [hq]
    by_cases h : s.phase = Phase.targeted ∧ s.targetedWordIndex < ws.length
    · rw [if_pos h]
    · rw [if_neg h, serverFetch_accuracy]

end AccuracyLemmas

/-- C1: when the analysis call — or, after a successful analysis, the
targeted-word-batch call — throws on the 5th initial-phase attempt, the
session stays in the blocking `analyzing` state with the analysis error
recorded: the phase is never set to `targeted`, the full 5-attempt phase-1
sequence is still held in `results` and was the sequence handed to the
analysis call, and no silent progress to phase 2 happens. -/
theorem c1_analysis_failure_blocks (s : GameState) (endTime t2 : Int)
    (ar : CallResult Analysis) (tr : CallResult (List (List Char))) (st : Int)
    (h1 : s.startTime = some st) (h2 : s.currentWord ≠ []) (h3 : jsTrim s.input ≠ [])
    (h4 : s.phase = Phase.initial) (h5 : s.wordCount + 1 ≥ TOTAL_WORDS)
    (hfail : ar = CallResult.threw ∨ ∃ a, ar = CallResult.ok a ∧ tr = CallResult.threw) :
    (handleSubmit s endTime t2 ar tr).state.phase = Phase.analyzing ∧
    (handleSubmit s endTime t2 ar tr).state.phase ≠ Phase.targeted ∧
    (handleSubmit s endTime t2 ar tr).state.results
        = s.results ++ [submitEntry s endTime st] ∧
    (handleSubmit s endTime t2 ar tr).phase1Snapshot
        = some (s.results ++ [submitEntry s endTime st]) ∧
    (handleSubmit s endTime t2 ar tr).state.error = some analysisErrorMsg := by
  have hne : Phase.analyzing ≠ Phase.targeted := by decide
  rw [handleSubmit_run s endTime t2 ar tr st h1 h2 h3, if_pos h5, if_pos h4]
  rcases hfail with h | ⟨a, ha, ht⟩
  · subst h
    exact ⟨rfl, hne, rfl, rfl, rfl⟩
  · subst ha
    subst ht
    exact ⟨rfl, hne, rfl, rfl, rfl⟩

/-- Witness for C1: the 5th attempt of a concrete initial-phase session with
a throwing analysis call. -/
theorem c1_analysis_failure_witness :
    (handleSubmit fifthAttemptState 800 900 CallResult.threw CallResult.threw).state.phase
        = Phase.analyzing ∧
    (handleSubmit fifthAttemptState 800 900 CallResult.threw CallResult.threw).state.phase
        ≠ Phase.targeted ∧
    (handleSubmit fifthAttemptState 800 900 CallResult.threw CallResult.threw).state.results
        = fifthAttemptState.results ++ [submitEntry fifthAttemptState 800 0] ∧
    (handleSubmit fifthAttemptState 800 900 CallResult.threw CallResult.threw).phase1Snapshot
        = some (fifthAttemptState.results ++ [submitEntry fifthAttemptState 800 0]) ∧
    (handleSubmit fifthAttemptState 800 900 CallResult.threw CallResult.threw).state.error
        = some analysisErrorMsg :=
  c1_analysis_failure_blocks fifthAttemptState 800 900 CallResult.threw CallResult.threw 0
    rfl (by decide) (by decide) rfl (by decide) (Or.inl rfl)

/-- C2: under the session invariants (`wordCount` counts the recorded
attempts and never exceeds 4 before a transition), the initial-to-analyzing
transition fires exactly on the attempt that brings the post-increment count
to the words-per-phase constant 5, and the phase-1 sequence snapshotted at
that moment has length exactly 5. -/
theorem c2_threshold_transition (s : GameState) (endTime t2 : Int)
    (ar : CallResult Analysis) (tr : CallResult (List (List Char))) (st : Int)
    (h1 : s.startTime = some st) (h2 : s.currentWord ≠ []) (h3 : jsTrim s.input ≠ [])
    (h4 : s.phase = Phase.initial) (hinv : s.wordCount = s.results.length)
    (hbound : s.wordCount ≤ 4) :
    ((handleSubmit s endTime t2 ar tr).enteredAnalyzing = true ↔ s.wordCount + 1 = 5) ∧
    (s.wordCount + 1 = 5 →
      (handleSubmit s endTime t2 ar tr).phase1Snapshot
          = some (s.results ++ [submitEntry s endTime st]) ∧
      (s.results ++ [submitEntry s endTime st]).length = 5) := by
  have hT : TOTAL_WORDS = 5 := rfl
  rw [handleSubmit_run s endTime t2 ar tr st h1 h2 h3]
  constructor
  · constructor
    · intro he
      by_contra hne
      rw [if_neg (by rw [hT]; omega : ¬ s.wordCount + 1 ≥ TOTAL_WORDS)] at he
      simp at he
    · intro h5
      rw [if_pos (by rw [hT]; omega : s.wordCount + 1 ≥ TOTAL_WORDS), if_pos h4]
      exact (analysisBranch_entered _ _ _ _ _).1
  · intro h5
    rw [if_pos (by rw [hT]; omega : s.wordCount + 1 ≥ TOTAL_WORDS), if_pos h4]
    refine ⟨(analysisBranch_entered _ _ _ _ _).2, ?_⟩
    rw [List.length_append, List.length_singleton]
    omega

/-- C5 fails as stated: the exponentially-weighted update is not the only way
the rolling accuracy evolves.  From a state with rolling accuracy 100 and one
incorrect recorded attempt, `generateNextWord` overwrites the accuracy with
the plain percent-correct `0`, a value no update of the claimed form
`(previous + perWordAccuracy) / 2` with `perWordAccuracy ∈ [0, 100]` can
produce. -/
theorem c5_accuracy_counterexample :
    wrongOnlyState.accuracy = 100 ∧
    (generateNextWord wrongOnlyState 0 (some ("dog".toList)) 0).state.accuracy = 0 ∧
    ¬(∃ a : ℚ, 0 ≤ a ∧ a ≤ 100 ∧
        (wrongOnlyState.accuracy + a) / 2
          = (generateNextWord wrongOnlyState 0 (some ("dog".toList)) 0).state.accuracy) := by
  have hacc : (generateNextWord wrongOnlyState 0 (some ("dog".toList)) 0).state.accuracy = 0 := by
    rw [generateNextWord_accuracy]
    show percentCorrect [badAttempt] = 0
    unfold percentCorrect
    rw [if_pos (by decide)]
    norm_num [List.countP_cons, badAttempt]
  refine ⟨rfl, hacc, ?_⟩
  rintro ⟨a, ha0, ha1, ha2⟩
  rw [hacc] at ha2
  have h100 : wrongOnlyState.accuracy = 100 := rfl
  rw [h100] at ha2
  linarith

/-- C5 (amended): after every scored attempt `handleSubmit` updates the
rolling accuracy to `(previous + perWordAccuracy) / 2` with `perWordAccuracy
= clamp(0, 100, (1 - mistakes/len(target)) * 100)`, and this update keeps it
in `[0, 100]`; additionally, `generateNextWord` overwrites the rolling
accuracy with the plain percent-correct of the recorded attempts, which also
lies in `[0, 100]`. -/
theorem c5_accuracy_amended :
    (∀ (s : GameState) (endTime t2 : Int) (ar : CallResult Analysis)
        (tr : CallResult (List (List Char))) (st : Int),
      s.startTime = some st → s.currentWord ≠ [] → jsTrim s.input ≠ [] →
      (handleSubmit s endTime t2 ar tr).state.accuracy
          = (s.accuracy + perWordAccuracy (targetWordOf s) (userWordOf s)) / 2 ∧
      (0 ≤ s.accuracy → s.accuracy ≤ 100 →
        0 ≤ (handleSubmit s endTime t2 ar tr).state.accuracy ∧
        (handleSubmit s endTime t2 ar tr).state.accuracy ≤ 100)) ∧
    (∀ (s : GameState) (now : Int) (sw : Option (List Char)) (fi : Fin 5),
      (generateNextWord s now sw fi).state.accuracy = percentCorrect s.results ∧
      0 ≤ percentCorrect s.results ∧ percentCorrect s.results ≤ 100) := by
  constructor
  · intro s endTime t2 ar tr st h1 h2 h3
    have heq := handleSubmit_accuracy s endTime t2 ar tr st h1 h2 h3
    refine ⟨heq, ?_⟩
    intro hlo hhi
    have hb := perWordAccuracy_bounds (targetWordOf s) (userWordOf s)
    rw [heq]
    constructor <;> [linarith [hb.1]; linarith [hb.2]]
  · intro s now sw fi
    have hb := percentCorrect_bounds s.results
    exact ⟨generateNextWord_accuracy s now sw fi, hb.1, hb.2⟩

/-- Witness for the amended C5 at a concrete scoring state. -/
theorem c5_accuracy_witness :
    (handleSubmit scoringState 800 900 CallResult.threw CallResult.threw).state.accuracy
        = (scoringState.accuracy
            + perWordAccuracy (targetWordOf scoringState) (userWordOf scoringState)) / 2 ∧
    0 ≤ (handleSubmit scoringState 800 900 CallResult.threw CallResult.threw).state.accuracy ∧
    (handleSubmit scoringState 800 900 CallResult.threw CallResult.threw).state.accuracy ≤ 100 ∧
    (generateNextWord scoringState 0 none 0).state.accuracy = percentCorrect scoringState.results := by
  have h1 := c5_accuracy_amended.1 scoringState 800 900 CallResult.threw CallResult.threw 0
    rfl (by decide) (by decide)
  have h2 := c5_accuracy_amended.2 scoringState 0 none 0
  have hb := h1.2 (by decide) (by decide)
  exact ⟨h1.1, hb.1, hb.2, h2.1⟩

/-- Witness for C2: the concrete 5th attempt of an initial-phase session. -/
theorem c2_threshold_witness :
    ((handleSubmit fifthAttemptState 800 900 CallResult.successFalse
        CallResult.successFalse).enteredAnalyzing = true
      ↔ fifthAttemptState.wordCount + 1 = 5) ∧
    (fifthAttemptState.wordCount + 1 = 5 →
      (handleSubmit fifthAttemptState 800 900 CallResult.successFalse
          CallResult.successFalse).phase1Snapshot
          = some (fifthAttemptState.results ++ [submitEntry fifthAttemptState 800 0]) ∧
      (fifthAttemptState.results ++ [submitEntry fifthAttemptState 800 0]).length = 5) :=
  c2_threshold_transition fifthAttemptState 800 900 CallResult.successFalse
    CallResult.successFalse 0 rfl (by decide) (by decide) rfl rfl (by decide)

/-- C6: at the targeted-phase finish, the payload handed to the save endpoint
is exactly the stored phase-1 snapshot concatenated with the phase-2
attempts, so its length is the sum of the two lengths and phase-1 elements
precede phase-2 elements with relative order preserved, without
de-duplication or re-sorting. -/
theorem c6_merge_concat (s : GameState) (endTime t2 : Int)
    (ar : CallResult Analysis) (tr : CallResult (List (List Char))) (st : Int)
    (h1 : s.startTime = some st) (h2 : s.currentWord ≠ []) (h3 : jsTrim s.input ≠ [])
    (h4 : s.phase = Phase.targeted) (h5 : s.wordCount + 1 ≥ TOTAL_WORDS) :
    (handleSubmit s endTime t2 ar tr).saved
        = some (s.storedFirstSet.getD [] ++ (s.results ++ [submitEntry s endTime st])) ∧
    (s.storedFirstSet.getD [] ++ (s.results ++ [submitEntry s endTime st])).length
        = (s.storedFirstSet.getD []).length + (s.results ++ [submitEntry s endTime st]).length := by
  constructor
  · rw [handleSubmit_run s endTime t2 ar tr st h1 h2 h3, if_pos h5,
      if_neg (by simp [h4]), if_pos h4]
    rfl
  · rw [List.length_append]

/-- Witness for C6 at a concrete targeted-phase finishing state. -/
theorem c6_merge_witness :
    (handleSubmit fifthTargetedState 700 900 CallResult.threw CallResult.threw).saved
        = some (fifthTargetedState.storedFirstSet.getD []
            ++ (fifthTargetedState.results ++ [submitEntry fifthTargetedState 700 0])) ∧
    (fifthTargetedState.storedFirstSet.getD []
        ++ (fifthTargetedState.results ++ [submitEntry fifthTargetedState 700 0])).length
        = (fifthTargetedState.storedFirstSet.getD []).length
            + (fifthTargetedState.results ++ [submitEntry fifthTargetedState 700 0]).length :=
  c6_merge_concat fifthTargetedState 700 900 CallResult.threw CallResult.threw 0
    rfl (by decide) (by decide) rfl (by decide)

/-- C7 names the intended behaviour, but the code never starts the per-word
timer when an initial-phase word is displayed: `generateInitialWord` leaves
`startTime` as `none`, the plain server fetch of `generateNextWord` also
leaves it untouched, and `handleSubmit`'s `!startTime` guard then drops the
submission entirely — no attempt is recorded for the displayed first word. -/
theorem c7_timer_never_started_in_initial_phase :
    firstWordState.startTime = none ∧
    firstWordState.currentWord = "cat".toList ∧
    (handleSubmit firstWordState 5000 6000 CallResult.threw CallResult.threw)
        = { state := firstWordState, saved := none
            enteredAnalyzing := false, phase1Snapshot := none } ∧
    (handleSubmit firstWordState 5000 6000 CallResult.threw CallResult.threw).state.results = [] ∧
    (generateNextWord firstWordState 0 (some ("dog".toList)) 0).state.startTime = none := by
  refine ⟨rfl, rfl, rfl, rfl, rfl⟩

/-- C8: when the word-supplier request fails during normal word generation,
the controller substitutes a member of the fixed five-entry offline fallback
pool as the current word instead of blocking; a fallback word is a non-empty
word like any other, so with a running timer the 5th scored attempt on it
still triggers the phase transition. -/
theorem c8_fallback_pool (s : GameState) (now : Int) (fallbackIdx : Fin 5)
    (hq : s.targetedWords = none) :
    (generateNextWord s now none fallbackIdx).state.currentWord
        = fallbackWords.getD fallbackIdx.val [] ∧
    (generateNextWord s now none fallbackIdx).state.currentWord ∈ fallbackWords ∧
    (generateNextWord s now none fallbackIdx).state.currentWord ≠ [] ∧
    fallbackWords.length = 5 ∧
    (generateNextWord s now none fallbackIdx).state.isGeneratingWord = false ∧
    (∀ (s' : GameState) (endTime t2 : Int) (ar : CallResult Analysis)
        (tr : CallResult (List (List Char))) (st : Int),
      s'.currentWord = (generateNextWord s now none fallbackIdx).state.currentWord →
      s'.startTime = some st → jsTrim s'.input ≠ [] →
      s'.phase = Phase.initial → s'.wordCount + 1 ≥ TOTAL_WORDS →
      (handleSubmit s' endTime t2 ar tr).enteredAnalyzing = true) := by
  have hword : (generateNextWord s now none fallbackIdx).state.currentWord
      = fallbackWords.getD fallbackIdx.val [] := by
    unfold generateNextWord serverFetch
    rcases hq' : s.targetedWords with _ | ws
    · rfl
    · rw [hq] at hq'
      exact absurd hq' (by simp)
  have hmem : fallbackWords.getD fallbackIdx.val [] ∈ fallbackWords ∧
      fallbackWords.getD fallbackIdx.val [] ≠ [] := by
    fin_cases fallbackIdx <;> exact ⟨by decide, by decide⟩
  have hgen : (generateNextWord s now none fallbackIdx).state.isGeneratingWord = false := by
    unfold generateNextWord serverFetch
    rcases hq' : s.targetedWords with _ | ws
    · rfl
    · rw [hq] at hq'
      exact absurd hq' (by simp)
  refine ⟨hword, hword ▸ hmem.1, hword ▸ hmem.2, rfl, hgen, ?_⟩
  intro s' endTime t2 ar tr st hw h1 h3 h4 h5
  have h2 : s'.currentWord ≠ [] := by
    rw [hw, hword]
    exact hmem.2
  rw [handleSubmit_run s' endTime t2 ar tr st h1 h2 h3, if_pos h5, if_pos h4]
  exact (analysisBranch_entered _ _ _ _ _).1

/-- Witness for C8: a fresh initial-phase state with a failing word supplier,
followed by a 5th attempt typed over the substituted fallback word. -/
theorem c8_fallback_witness :
    (generateNextWord initialState 0 none 2).state.currentWord
        = fallbackWords.getD 2 [] ∧
    (generateNextWord initialState 0 none 2).state.currentWord ∈ fallbackWords ∧
    fallbackWords.length = 5 ∧
    (handleSubmit fallbackFifthState 800 900 CallResult.threw
        CallResult.threw).enteredAnalyzing = true := by
  have h := c8_fallback_pool initialState 0 2 rfl
  refine ⟨h.1, h.2.1, h.2.2.2.1, ?_⟩
  exact h.2.2.2.2.2 fallbackFifthState 800 900 CallResult.threw CallResult.threw 0
    (by rw [h.1]; decide) rfl (by decide) rfl (by decide)

/-- C9 fails as stated: aborting from the targeted phase saves only the
current phase's `results` — the phase-1 attempts, still present in session
storage, are not part of the payload, so the save does not cover all
attempts that exist so far. -/
theorem c9_abort_save_counterexample :
    (closeClickStart abortState).2 = some [badAttempt] ∧
    okAttempt ∈ abortState.storedFirstSet.getD [] ∧
    okAttempt ∉ [badAttempt] := by
  refine ⟨rfl, by decide, by decide⟩

/-- C9 (amended): an abort from a non-terminal state attempts a best-effort
save of the current phase's attempts only (none at all when `results` is
empty, and excluding the phase-1 snapshot held in session storage), and a
second abort request while one save is in flight is a no-op, so at most one
abort-save is in flight at a time. -/
theorem c9_abort_save_amended (s : GameState) :
    (s.savingOnClose = false → s.results ≠ [] →
      (closeClickStart s).2 = some s.results ∧ (closeClickStart s).1.savingOnClose = true) ∧
    (s.savingOnClose = false → s.results = [] → (closeClickStart s).2 = none) ∧
    (s.savingOnClose = true → closeClickStart s = (s, none)) ∧
    closeClickStart (closeClickStart s).1 = ((closeClickStart s).1, none) := by
  refine ⟨?_, ?_, ?_, ?_⟩
  · intro hflag hres
    unfold closeClickStart
    rw [if_neg (by simp [hflag])]
    have hlen : s.results.length > 0 := List.length_pos.mpr hres
    rw [if_pos hlen]
    exact ⟨rfl, rfl⟩
  · intro hflag hres
    unfold closeClickStart
    rw [if_neg (by simp [hflag])]
    rw [if_neg (by simp [hres])]
  · intro hflag
    unfold closeClickStart
    rw [if_pos hflag]
  · by_cases hflag : s.savingOnClose
    · unfold closeClickStart
      rw [if_pos hflag]
      rw [if_pos hflag]
    · unfold closeClickStart
      rw [if_neg hflag]
      rw [if_pos rfl]

/-- Witness for the amended C9 at the concrete mid-targeted abort state. -/
theorem c9_abort_save_witness :
    ((closeClickStart abortState).2 = some abortState.results ∧
      (closeClickStart abortState).1.savingOnClose = true) ∧
    closeClickStart (closeClickStart abortState).1 = ((closeClickStart abortState).1, none) := by
  have h := c9_abort_save_amended abortState
  exact ⟨h.1 rfl (by decide), h.2.2.2⟩

/-- C10: in the targeted phase with the pre-fetched queue exhausted (cursor
at or past the queue length), `generateNextWord` neither fails nor ends the
session: it falls through to a live word-supplier request carrying phase
`targeted`, and on success displays the returned word with no error. -/
theorem c10_queue_exhausted_requests (s : GameState) (now : Int)
    (sw : Option (List Char)) (fi : Fin 5) (ws : List (List Char))
    (hq : s.targetedWords = some ws) (hphase : s.phase = Phase.targeted)
    (hcur : ws.length ≤ s.targetedWordIndex) :
    (generateNextWord s now sw fi).request = some Phase.targeted ∧
    (∀ w, sw = some w →
      (generateNextWord s now sw fi).state.currentWord = w ∧
      (generateNextWord s now sw fi).state.error = none ∧
      (generateNextWord s now sw fi).state.isGeneratingWord = false) := by
  have hnot : ¬(s.phase = Phase.targeted ∧ s.targetedWordIndex < ws.length) := by
    rintro ⟨_, hlt⟩
    omega
  constructor
  · unfold generateNextWord
    simp only [hq]
    rw [if_neg hnot]
    cases sw with
    | none => simp [serverFetch, hphase]
    | some w => simp [serverFetch, hphase]
  · intro w hw
    subst hw
    unfold generateNextWord
    simp only [hq]
    rw [if_neg hnot]
    exact ⟨rfl, rfl, rfl⟩

/-- Witness for C10 at a concrete exhausted-queue targeted state. -/
theorem c10_queue_exhausted_witness :
    (generateNextWord exhaustedQueueState 0 (some ("book".toList)) 0).request
        = some Phase.targeted ∧
    (generateNextWord exhaustedQueueState 0 (some ("book".toList)) 0).state.currentWord
        = "book".toList := by
  have h := c10_queue_exhausted_requests exhaustedQueueState 0 (some ("book".toList)) 0
    (["sun".toList, "tree".toList]) rfl rfl (by decide)
  exact ⟨h.1, (h.2 ("book".toList) rfl).1⟩

end TypingGame
